import Mathlib

/-!
Shallow embedding of the FastApi-Guest-Book service (Reishandy/FastApi-Guest-Book).

The repository contains two deployment variants of the database layer:

* `app/database.py` — the id/name variant: documents `{id, name, check_in,
  checked_in_at}`, upsert-style CSV import, and a check-in that rejects an
  already-checked-in participant.
* `database.py` (repository root) — the nim roster variant: documents
  `{nim, name, address, phone_number, email, major, study_program,
  generation, status, check_in, checked_in_at}`, insert-only CSV import that
  skips pre-existing keys, and a check-in without an already-checked-in guard.

The Mongo `entry` collection is modelled as a list of documents; `find_one`
returns the first document matching the filter, `update_one` rewrites the
first matching document in place, `insert_many` appends, `update_many` maps
over every document and its `modified_count` counts the documents actually
changed by the `$set`.  Timestamps (`datetime.now(...)`) are opaque strings
passed in as parameters.  Python field values that can be a bool, a string or
`None` are modelled by the `Val` type together with Python truthiness.
-/

namespace GuestBook

/-- A Python value that can live in the `check_in` / `checked_in_at` fields of
a stored document: a boolean, a string (CSV cells are strings), or `None`. -/
inductive Val where
  | vBool : Bool → Val
  | vStr : String → Val
  | vNull : Val
deriving DecidableEq

/-- Python truthiness of a `Val`: `bool(False) = False`, `bool("") = False`,
`bool(None) = False`; non-empty strings and `True` are truthy. -/
def Val.truthy : Val → Bool
  | .vBool b => b
  | .vStr s => !s.isEmpty
  | .vNull => false

/-- A document of the `entry` collection in the id/name variant
(`app/database.py`): exactly the fields written by `import_csv`, `check_in`
and `reset_check_in` there. -/
structure RecApp where
  id : String
  name : String
  check_in : Val
  checked_in_at : Val
deriving DecidableEq

/-- The `entry` collection of the id/name variant, as a sequence of
documents. -/
abbrev StoreApp := List RecApp

/-- `DB.entry.find_one({"id": i})`: the first document whose `id` equals
`i`. -/
def findOneApp : StoreApp → String → Option RecApp
  | [], _ => none
  | r :: rs, i => if r.id = i then some r else findOneApp rs i

/-- The sequence of `id` fields of the collection. -/
def idsApp (s : StoreApp) : List String := s.map (·.id)

/-- The errors raised by the database layer that the claims are about:
`ValueError("ID not found")` and `ValueError("Already checked in")`. -/
inductive DbErr where
  | notFound
  | alreadyCheckedIn
deriving DecidableEq

/-- The message carried by the `ValueError` (`app/database.py` lines 152 and
156). -/
def DbErr.message : DbErr → String
  | .notFound => "ID not found"
  | .alreadyCheckedIn => "Already checked in"

/-- `DB.entry.update_one({"id": i}, {"$set": {"check_in": True,
"checked_in_at": t}})`: rewrite the first document with `id = i`
(`app/database.py` line 161). -/
def updateCheckIn (i t : String) : StoreApp → StoreApp
  | [] => []
  | r :: rs =>
    if r.id = i then { r with check_in := .vBool true, checked_in_at := .vStr t } :: rs
    else r :: updateCheckIn i t rs

/-- `check_in` of `app/database.py` (lines 133-164): find the entry by `id`;
`ValueError("ID not found")` if absent; `ValueError("Already checked in")` if
`entry.get("check_in", False)` is truthy; otherwise set `check_in`/
`checked_in_at` and return the timestamp `t` (the current time in
`Asia/Jakarta`, opaque here). -/
def check_in_app (t i : String) (s : StoreApp) : Except DbErr (String × StoreApp) :=
  match findOneApp s i with
  | none => .error .notFound
  | some entry =>
    if entry.check_in.truthy then .error .alreadyCheckedIn
    else .ok (t, updateCheckIn i t s)

/-- A document of the `entry` collection in the nim roster variant
(`database.py` at the repository root). -/
structure RecNim where
  nim : String
  name : String
  address : String
  phone_number : String
  email : String
  major : String
  study_program : String
  generation : String
  status : String
  check_in : Val
  checked_in_at : Val
deriving DecidableEq

/-- The `entry` collection of the nim roster variant. -/
abbrev StoreNim := List RecNim

/-- `DB.entry.find_one({"nim": i})`: the first document whose `nim` equals
`i`. -/
def findOneNim : StoreNim → String → Option RecNim
  | [], _ => none
  | r :: rs, i => if r.nim = i then some r else findOneNim rs i

/-- `DB.entry.update_one({"nim": i}, {"$set": {"check_in": True,
"checked_in_at": t}})` (`database.py` line 188). -/
def updateCheckInNim (i t : String) : StoreNim → StoreNim
  | [] => []
  | r :: rs =>
    if r.nim = i then { r with check_in := .vBool true, checked_in_at := .vStr t } :: rs
    else r :: updateCheckInNim i t rs

/-- `check_in` of the root `database.py` (lines 164-191): find the entry by
`nim`; `ValueError("ID not found")` if absent; otherwise set
`check_in`/`checked_in_at` and return the timestamp.  There is no
already-checked-in guard in this variant. -/
def check_in_nim (t i : String) (s : StoreNim) : Except DbErr (String × StoreNim) :=
  match findOneNim s i with
  | none => .error .notFound
  | some _ => .ok (t, updateCheckInNim i t s)

/-- The `$set {"check_in": False, "checked_in_at": None}` applied by
`reset_check_in` to a document. -/
def resetRec (r : RecApp) : RecApp :=
  { r with check_in := .vBool false, checked_in_at := .vNull }

/-- `DB.entry.update_one({"id": i}, {"$set": {"check_in": False,
"checked_in_at": None}})`: rewrite the first document with `id = i`
(`app/database.py` line 193). -/
def updateResetOne (i : String) : StoreApp → StoreApp
  | [] => []
  | r :: rs => if r.id = i then resetRec r :: rs else r :: updateResetOne i rs

/-- The `modified_count` reported by `DB.entry.update_many({}, {"$set":
{"check_in": False, "checked_in_at": None}})`: MongoDB counts only the
documents the `$set` actually changed. -/
def modifiedCountReset (s : StoreApp) : Nat :=
  s.countP (fun r => decide (resetRec r ≠ r))

/-- `reset_check_in` of `app/database.py` (lines 167-203): if `entry_id` is
not the literal string `"all"`, look the entry up by `id`
(`ValueError("ID not found")` if absent) and reset that one document,
returning 1; otherwise `update_many` resets every document and the
`modified_count` is returned. -/
def reset_check_in_app (i : String) (s : StoreApp) : Except DbErr (Nat × StoreApp) :=
  if i ≠ "all" then
    match findOneApp s i with
    | none => .error .notFound
    | some _ => .ok (1, updateResetOne i s)
  else
    .ok (modifiedCountReset s, s.map resetRec)

/-- The JSON body and status code produced by the `app/main.py` endpoints:
`message` is the `{"message": ...}` field (the custom exception handler turns
`detail` into `message`), `time` is the `"time"` field of a successful
check-in response. -/
structure HttpResp where
  status : Nat
  message : String
  time : Option String
deriving DecidableEq

/-- The `/check-in/{entry_id}` endpoint of `app/main.py` (lines 137-148): a
successful `db_handler.check_in` yields status 200 with the timestamp; a
`ValueError` (both "ID not found" and "Already checked in") is re-raised as
`HTTPException(status_code=404, detail=str(e))`.  (The `except Exception`
branch for storage failures is outside this model.) -/
def main_check_in (t i : String) (s : StoreApp) : HttpResp :=
  match check_in_app t i s with
  | .ok (time, _) => { status := 200, message := "ok", time := some time }
  | .error e => { status := 404, message := e.message, time := none }

/-- The errors `import_csv` raises for malformed input: `ValueError("Empty
file")`, `ValueError("Missing required columns id and/or name")` (id/name
variant), `ValueError("Invalid file format")` (nim variant). -/
inductive ImpErr where
  | emptyFile
  | missingColumns
  | invalidFormat
deriving DecidableEq

/-- A CSV row as parsed by `csv.DictReader` in the id/name variant: under an
accepted header the row has the `id` and `name` cells, and it has a
`check_in` / `checked_in_at` cell exactly when the header carries that
column (`Option` models column presence). -/
structure RowApp where
  id : String
  name : String
  check_in_col : Option String
  checked_in_at_col : Option String
deriving DecidableEq

/-- The document staged by `import_csv` of `app/database.py` (lines 81-87)
from a parsed CSV row: `row.get("check_in", False)` and
`row.get("checked_in_at", None)`.  A `DictReader` row maps a present column
to the cell string, so an absent column gives the Python default (`False`
resp. `None`) and a present column gives the string verbatim. -/
def docOfRowApp (row : RowApp) : RecApp :=
  { id := row.id
    name := row.name
    check_in :=
      match row.check_in_col with
      | some s => .vStr s
      | none => .vBool false
    checked_in_at :=
      match row.checked_in_at_col with
      | some s => .vStr s
      | none => .vNull }

/-- `DB.entry.update_one({"id": d.id}, {"$set": d}, upsert=True)`
(`app/database.py` line 92): rewrite the first document with matching `id`
(the `$set` document carries every field, so the result is `d`), or append
`d` when no document matches. -/
def upsertOne (d : RecApp) : StoreApp → StoreApp
  | [] => [d]
  | r :: rs => if r.id = d.id then d :: rs else r :: upsertOne d rs

/-- The upsert loop of `import_csv` in `app/database.py` (lines 90-92), one
`update_one(..., upsert=True)` per staged document, in row order. -/
def upsertAll : List RowApp → StoreApp → StoreApp
  | [], s => s
  | row :: rest, s => upsertAll rest (upsertOne (docOfRowApp row) s)

/-- `import_csv` of `app/database.py` (lines 51-95) from the header check
down: `{"id", "name"}.issubset(csv_reader.fieldnames)` — a mere membership
check, insensitive to order and ignoring extra columns — guards the upsert
loop; the returned count is `len(documents)`.  (The emptiness check on the
raw byte stream happens before parsing and is outside this model.) -/
def import_csv_app (header : List String) (rows : List RowApp) (s : StoreApp) :
    Except ImpErr (Nat × StoreApp) :=
  if "id" ∈ header ∧ "name" ∈ header then
    .ok (rows.length, upsertAll rows s)
  else
    .error .missingColumns

/-- The expected header of the nim roster CSV (`database.py` lines 73-74). -/
def nimHeader : List String :=
  ["nim", "name", "address", "phone_number", "email", "major", "study_program",
   "generation", "status"]

/-- The expected header with the two check-in columns appended
(`database.py` line 75). -/
def nimHeaderWithCheckIn : List String :=
  nimHeader ++ ["check_in", "checked_in_at"]

/-- A CSV row as parsed by `csv.DictReader` in the nim roster variant: the
nine roster cells, plus the two check-in cells exactly when the header is the
extended one. -/
structure RowNim where
  nim : String
  name : String
  address : String
  phone_number : String
  email : String
  major : String
  study_program : String
  generation : String
  status : String
  check_in_col : Option String
  checked_in_at_col : Option String
deriving DecidableEq

/-- The document staged by `import_csv` of the root `database.py` (lines
93-109).  Every roster cell is copied verbatim (`row["name"]` etc., with no
whitespace stripping); `row.get("check_in", "") or False` turns an absent or
empty cell into `False` and keeps a non-empty cell; `row.get("checked_in_at",
"") or None` turns an absent or empty cell into `None`. -/
def docOfRowNim (row : RowNim) : RecNim :=
  { nim := row.nim
    name := row.name
    address := row.address
    phone_number := row.phone_number
    email := row.email
    major := row.major
    study_program := row.study_program
    generation := row.generation
    status := row.status
    check_in :=
      match row.check_in_col with
      | some s => if s.isEmpty then .vBool false else .vStr s
      | none => .vBool false
    checked_in_at :=
      match row.checked_in_at_col with
      | some s => if s.isEmpty then .vNull else .vStr s
      | none => .vNull }

/-- The skip-on-conflict loop of the root `import_csv` (lines 88-91): a row
whose `nim` is in the set of existing nims — fetched once, before the loop —
is skipped. -/
def filterNew (existing : List String) : List RowNim → List RowNim
  | [] => []
  | row :: rest =>
    if row.nim ∈ existing then filterNew existing rest
    else row :: filterNew existing rest

/-- `import_csv` of the root `database.py` (lines 50-118) from the header
check down: the header must equal `nimHeader` or `nimHeaderWithCheckIn`
(order-sensitive list equality, `csv_reader.fieldnames != expected ...`);
then the existing nims are fetched (`DB.entry.distinct("nim")`), rows with a
pre-existing nim are skipped, the staged documents are appended by
`insert_many`, and `len(result.inserted_ids)` is returned (0 when nothing was
staged). -/
def import_csv_nim (header : List String) (rows : List RowNim) (s : StoreNim) :
    Except ImpErr (Nat × StoreNim) :=
  if header ≠ nimHeader ∧ header ≠ nimHeaderWithCheckIn then
    .error .invalidFormat
  else
    let existing := s.map (·.nim)
    let documents := (filterNew existing rows).map docOfRowNim
    .ok (documents.length, s ++ documents)

/-- The observable position of one request coroutine running `check_in` of
`app/database.py`: before its `find_one` await, holding the `find_one`
result, or finished with the function's outcome. -/
inductive ThPos where
  | start : ThPos
  | readDone : Option RecApp → ThPos
  | finished : Except DbErr String → ThPos

/-- One atomic step of a `check_in` coroutine against the shared collection.
The two store operations of `check_in` — the `find_one` read and the
unconditional `update_one({"id": i}, {"$set": ...})` write — are separate
awaits; the not-found and already-checked-in tests run on the value the read
returned, not on the current store. -/
def stepCheckIn (i t : String) (store : StoreApp) : ThPos → StoreApp × ThPos
  | .start => (store, .readDone (findOneApp store i))
  | .readDone none => (store, .finished (.error .notFound))
  | .readDone (some entry) =>
    if entry.check_in.truthy then (store, .finished (.error .alreadyCheckedIn))
    else (updateCheckIn i t store, .finished (.ok t))
  | .finished r => (store, .finished r)

/-- Two concurrent `check_in(i)` requests sharing the collection. -/
structure TwoCheckIns where
  store : StoreApp
  th1 : ThPos
  th2 : ThPos

/-- Run one step of the chosen request (`true` steps the first). -/
def stepTwo (i t1 t2 : String) (sys : TwoCheckIns) (choice : Bool) : TwoCheckIns :=
  if choice then
    let p := stepCheckIn i t1 sys.store sys.th1
    { sys with store := p.1, th1 := p.2 }
  else
    let p := stepCheckIn i t2 sys.store sys.th2
    { sys with store := p.1, th2 := p.2 }

/-- Execute an interleaving (a schedule of thread choices) of two concurrent
`check_in(i)` requests from an initial collection. -/
def execTwo (i t1 t2 : String) (s0 : StoreApp) (sched : List Bool) : TwoCheckIns :=
  sched.foldl (stepTwo i t1 t2) { store := s0, th1 := .start, th2 := .start }

/-- The last staged document of the batch whose `id` is `k`, if any: a later
`update_one(..., upsert=True)` of the loop overwrites an earlier one on the
same key, so the last write wins. -/
def lastUpsert (rows : List RowApp) (k : String) : Option RecApp :=
  match rows with
  | [] => none
  | row :: rest =>
    match lastUpsert rest k with
    | some d => some d
    | none => if row.id = k then some (docOfRowApp row) else none

/-- The ids the upsert loop appends to a collection whose id sequence is
`seen`: the first occurrence of each batch id not already present, in batch
order. -/
def newIds (rows : List RowApp) (seen : List String) : List String :=
  match rows with
  | [] => []
  | row :: rest =>
    if row.id ∈ seen then newIds rest seen
    else row.id :: newIds rest (seen ++ [row.id])

/-- The per-record invariant of the data model: `checked_in` is truthy iff
`checked_in_at` is non-null. -/
def checkInConsistent (r : RecApp) : Prop :=
  r.check_in.truthy = true ↔ r.checked_in_at ≠ Val.vNull

instance (r : RecApp) : Decidable (checkInConsistent r) :=
  decidable_of_iff (r.check_in.truthy = true ↔ r.checked_in_at ≠ Val.vNull) Iff.rfl

/-- Drop leading whitespace characters. -/
def dropLeadingSpaces : List Char → List Char
  | [] => []
  | c :: cs => if c.isWhitespace then dropLeadingSpaces cs else c :: cs

/-- Python's `str.strip()`: the string with leading and trailing whitespace
removed.  (`import_csv` never calls this on a field; the definition only
states what "trimming incidental whitespace" would mean.) -/
def pyStrip (s : String) : String :=
  ⟨(dropLeadingSpaces (dropLeadingSpaces s.data).reverse).reverse⟩

/-- A participant of the id/name variant that is not checked in. -/
def recAppA : RecApp :=
  { id := "A", name := "Alice", check_in := .vBool false, checked_in_at := .vNull }

/-- A participant of the id/name variant that is already checked in. -/
def recAppChecked : RecApp :=
  { id := "C", name := "Carol", check_in := .vBool true,
    checked_in_at := .vStr "2025-01-01T10:00:00+07:00" }

/-- A CSV row of the id/name variant without check-in columns. -/
def rowAppA : RowApp :=
  { id := "A", name := "Alice", check_in_col := none, checked_in_at_col := none }

/-- A CSV row of the id/name variant whose explicit check-in cells are
mutually inconsistent: an empty (falsy) `check_in` cell next to a non-empty
`checked_in_at` cell. -/
def rowAppInconsistent : RowApp :=
  { id := "A", name := "Alice", check_in_col := some "",
    checked_in_at_col := some "2025-01-01T10:00:00+07:00" }

/-- A roster participant of the nim variant that is not checked in. -/
def recNimA : RecNim :=
  { nim := "A", name := "Alice", address := "Addr 1", phone_number := "555",
    email := "alice@example.com", major := "CS", study_program := "SE",
    generation := "2020", status := "active",
    check_in := .vBool false, checked_in_at := .vNull }

/-- `recNimA` after a check-in at timestamp "T1". -/
def recNimA_t1 : RecNim :=
  { recNimA with check_in := .vBool true, checked_in_at := .vStr "T1" }

/-- `recNimA` after a further check-in at timestamp "T2". -/
def recNimA_t2 : RecNim :=
  { recNimA with check_in := .vBool true, checked_in_at := .vStr "T2" }

/-- A nim-variant CSV row with a fresh key whose fields carry incidental
whitespace. -/
def rowNimSpaces : RowNim :=
  { nim := "B", name := " Alice ", address := " Addr 1 ", phone_number := "555",
    email := "alice@example.com", major := "CS", study_program := "SE",
    generation := "2020", status := "active",
    check_in_col := none, checked_in_at_col := none }

/-- A nim-variant CSV row whose key collides with `recNimA`. -/
def rowNimA : RowNim :=
  { nim := "A", name := "Alice Updated", address := "Addr 2", phone_number := "556",
    email := "alice2@example.com", major := "Math", study_program := "Pure",
    generation := "2021", status := "active",
    check_in_col := none, checked_in_at_col := none }

theorem docOfRowApp_id (row : RowApp) : (docOfRowApp row).id = row.id := rfl

/-- After the check-in write, the entry found under `i` is the old entry with
`check_in = True` and `checked_in_at = t`. -/
theorem findOneApp_updateCheckIn (s : StoreApp) (i t : String) (r : RecApp)
    (h : findOneApp s i = some r) :
    findOneApp (updateCheckIn i t s) i =
      some { r with check_in := .vBool true, checked_in_at := .vStr t } := by
  induction s with
  | nil => simp [findOneApp] at h
  | cons a as ih =>
    by_cases hai : a.id = i
    · simp [findOneApp, hai] at h
      subst h
      simp [updateCheckIn, findOneApp, hai]
    · simp only [findOneApp, if_neg hai] at h
      simp only [updateCheckIn, if_neg hai, findOneApp]
      exact ih h

/-- C1 (amended): in the id/name variant (`app/database.py`), for every
participant record present in the store and not yet checked in, calling
check-in twice in sequence yields success (a timestamp) on the first call and
the "Already checked in" conflict error on the second call; the two calls
never both succeed. -/
theorem C1_app_two_sequential_check_ins (s : StoreApp) (i t1 t2 : String) (r : RecApp)
    (hfind : findOneApp s i = some r) (hnot : r.check_in.truthy = false) :
    check_in_app t1 i s = .ok (t1, updateCheckIn i t1 s) ∧
    check_in_app t2 i (updateCheckIn i t1 s) = .error .alreadyCheckedIn := by
  constructor
  · simp [check_in_app, hfind, hnot]
  · have h2 := findOneApp_updateCheckIn s i t1 r hfind
    simp [check_in_app, h2, Val.truthy]

/-- C1 witness: the amended claim at a concrete store with one
not-checked-in participant "A". -/
theorem C1_app_two_sequential_check_ins_witness :
    check_in_app "T1" "A" [recAppA] = .ok ("T1", updateCheckIn "A" "T1" [recAppA]) ∧
    check_in_app "T2" "A" (updateCheckIn "A" "T1" [recAppA]) = .error .alreadyCheckedIn :=
  C1_app_two_sequential_check_ins [recAppA] "A" "T1" "T2" recAppA (by rfl) (by rfl)

/-- C1 counterexample: in the nim variant (root `database.py`), `check_in`
has no already-checked-in guard, so two sequential check-ins for the same
present participant both succeed — the claim's "success then ConflictError;
never two successes" fails on this cited code. -/
theorem C1_counterexample_nim_double_success :
    check_in_nim "T1" "A" [recNimA] = .ok ("T1", [recNimA_t1]) ∧
    check_in_nim "T2" "A" [recNimA_t1] = .ok ("T2", [recNimA_t2]) :=
  ⟨rfl, rfl⟩

/-- C2: evaluated at the failing interleaving, both concurrent `check_in`
calls of `app/database.py` succeed: each coroutine's `find_one` read happens
before either write, the already-checked-in test runs on the stale read
value, and the `update_one({"id": i}, ...)` write is unconditional, so the
at-most-one-success resolution the claim states does not hold. -/
theorem C2_race_both_check_ins_succeed :
    (execTwo "A" "T1" "T2" [recAppA] [true, false, true, false]).th1 =
      .finished (.ok "T1") ∧
    (execTwo "A" "T1" "T2" [recAppA] [true, false, true, false]).th2 =
      .finished (.ok "T2") :=
  ⟨rfl, rfl⟩

/-- C7 (amended): in the insert-only (nim) variant, every roster field of a
staged document is copied verbatim from the CSV row — no whitespace is
trimmed from any field before the bulk insert. -/
theorem C7_staged_fields_verbatim (row : RowNim) :
    (docOfRowNim row).nim = row.nim ∧
    (docOfRowNim row).name = row.name ∧
    (docOfRowNim row).address = row.address ∧
    (docOfRowNim row).phone_number = row.phone_number ∧
    (docOfRowNim row).email = row.email ∧
    (docOfRowNim row).major = row.major ∧
    (docOfRowNim row).study_program = row.study_program ∧
    (docOfRowNim row).generation = row.generation ∧
    (docOfRowNim row).status = row.status :=
  ⟨rfl, rfl, rfl, rfl, rfl, rfl, rfl, rfl, rfl⟩

/-- C7 counterexample: a staged row whose `name` field carries incidental
whitespace is written to the store with the whitespace intact — the stored
field differs from its stripped form, refuting "trimmed from every field
before it is written". -/
theorem C7_counterexample_whitespace_kept :
    import_csv_nim nimHeader [rowNimSpaces] [] =
      .ok (1, [docOfRowNim rowNimSpaces]) ∧
    (docOfRowNim rowNimSpaces).name = " Alice " ∧
    pyStrip (docOfRowNim rowNimSpaces).name ≠ (docOfRowNim rowNimSpaces).name := by
  refine ⟨rfl, rfl, by decide⟩

/-- A document is unchanged by the reset `$set` exactly when it is already in
the not-checked-in state. -/
theorem resetRec_eq_self_iff (r : RecApp) :
    resetRec r = r ↔ (r.check_in = Val.vBool false ∧ r.checked_in_at = Val.vNull) := by
  cases r with
  | mk id name ci ca =>
    simp [resetRec, RecApp.mk.injEq, eq_comm]

/-- C8: the `"all"` selector of `reset_check_in` (`app/database.py` lines
197-203) resets every record to not-checked-in with the timestamp cleared,
and the returned `modified_count` counts exactly the records whose state
actually changed — records already at `check_in = False`,
`checked_in_at = None` are not counted. -/
theorem C8_reset_all_count_and_state (s : StoreApp) :
    reset_check_in_app "all" s =
      .ok (s.countP
            (fun r => decide (¬ (r.check_in = Val.vBool false ∧ r.checked_in_at = Val.vNull))),
           s.map resetRec) ∧
    ∀ r ∈ s.map resetRec,
      r.check_in = Val.vBool false ∧ r.checked_in_at = Val.vNull := by
  constructor
  · have hcount : modifiedCountReset s =
        s.countP
          (fun r => decide (¬ (r.check_in = Val.vBool false ∧ r.checked_in_at = Val.vNull))) := by
      unfold modifiedCountReset
      apply List.countP_congr
      intro r _
      simp [resetRec_eq_self_iff]
    simp [reset_check_in_app, hcount]
  · intro r hr
    rcases List.mem_map.mp hr with ⟨x, _, hx⟩
    subst hx
    simp [resetRec]

/-- C8 witness: the theorem applied to a concrete two-record store, one
record checked in and one already not checked in; the count is 1 and both
membership hypotheses of the second conjunct are discharged concretely. -/
theorem C8_reset_all_witness :
    reset_check_in_app "all" [recAppChecked, recAppA] =
      .ok (1, [resetRec recAppChecked, resetRec recAppA]) ∧
    (resetRec recAppChecked).check_in = Val.vBool false ∧
    (resetRec recAppChecked).checked_in_at = Val.vNull := by
  refine ⟨?_, (C8_reset_all_count_and_state [recAppChecked, recAppA]).2
    (resetRec recAppChecked) (by simp)⟩
  have h := (C8_reset_all_count_and_state [recAppChecked, recAppA]).1
  rw [h]
  rfl

/-- C9: the conflict failure of check-in is surfaced to the HTTP caller
distinctly from the not-found failure: an already-checked-in participant
yields status 404 with message "Already checked in", a missing id yields
status 404 with message "ID not found", and the two responses differ, so a
caller can disambiguate "already done" from "doesn't exist" (by message —
both failures share the 404 status code). -/
theorem C9_conflict_vs_not_found (s s2 : StoreApp) (t t2 i i2 : String) (r : RecApp)
    (hfound : findOneApp s i = some r) (hchecked : r.check_in.truthy = true)
    (hmissing : findOneApp s2 i2 = none) :
    main_check_in t i s =
      { status := 404, message := "Already checked in", time := none } ∧
    main_check_in t2 i2 s2 =
      { status := 404, message := "ID not found", time := none } ∧
    main_check_in t i s ≠ main_check_in t2 i2 s2 := by
  have h1 : main_check_in t i s =
      { status := 404, message := "Already checked in", time := none } := by
    simp [main_check_in, check_in_app, hfound, hchecked, DbErr.message]
  have h2 : main_check_in t2 i2 s2 =
      { status := 404, message := "ID not found", time := none } := by
    simp [main_check_in, check_in_app, hmissing, DbErr.message]
  refine ⟨h1, h2, ?_⟩
  rw [h1, h2]
  decide

/-- C9 witness: a checked-in participant "C" versus a missing id "Z". -/
theorem C9_conflict_vs_not_found_witness :
    main_check_in "T1" "C" [recAppChecked] =
      { status := 404, message := "Already checked in", time := none } ∧
    main_check_in "T2" "Z" [] =
      { status := 404, message := "ID not found", time := none } ∧
    main_check_in "T1" "C" [recAppChecked] ≠ main_check_in "T2" "Z" [] :=
  C9_conflict_vs_not_found [recAppChecked] [] "T1" "T2" "C" "Z" recAppChecked
    (by rfl) (by rfl) (by rfl)

/-- C10: in the id/name variant, `reset_check_in "all"` always takes the
reset-all branch: it returns the `update_many` outcome for every store, never
the not-found error, and returns 0 on the empty store — so a record whose id
is literally `"all"` is never reset individually (the whole store is reset
instead). -/
theorem C10_reset_all_selector (s : StoreApp) :
    reset_check_in_app "all" s = .ok (modifiedCountReset s, s.map resetRec) ∧
    reset_check_in_app "all" s ≠ .error .notFound ∧
    (s = [] → reset_check_in_app "all" s = .ok (0, [])) := by
  have h1 : reset_check_in_app "all" s = .ok (modifiedCountReset s, s.map resetRec) := by
    simp [reset_check_in_app]
  refine ⟨h1, ?_, ?_⟩
  · rw [h1]
    intro hc
    exact Except.noConfusion hc
  · intro hs
    subst hs
    rfl

/-- C10 witness: the empty-store hypothesis discharged concretely —
`reset_check_in "all"` on the empty store returns 0 instead of raising
not-found. -/
theorem C10_reset_all_selector_witness :
    reset_check_in_app "all" ([] : StoreApp) = .ok (0, []) :=
  (C10_reset_all_selector []).2.2 rfl

/-- Appending documents does not change what `find_one` returns for a key
already present in the collection. -/
theorem findOneNim_append (s l : StoreNim) (k : String) (h : k ∈ s.map RecNim.nim) :
    findOneNim (s ++ l) k = findOneNim s k := by
  induction s with
  | nil => simp at h
  | cons a as ih =>
    by_cases hak : a.nim = k
    · simp [findOneNim, hak]
    · simp only [List.map_cons, List.mem_cons] at h
      rcases h with h1 | h1
      · exact absurd h1.symm hak
      · simp only [List.cons_append, findOneNim, if_neg hak]
        exact ih h1

/-- C6: under the insert-only policy (root `database.py`), importing a batch
with one fresh key and one pre-existing key stages and inserts only the fresh
row, returns an inserted count of 1, and leaves the pre-existing record —
check-in state included — entirely unchanged. -/
theorem C6_insert_only_one_new_one_existing (s : StoreNim) (r1 r2 : RowNim)
    (h1 : r1.nim ∉ s.map RecNim.nim) (h2 : r2.nim ∈ s.map RecNim.nim) :
    import_csv_nim nimHeader [r1, r2] s = .ok (1, s ++ [docOfRowNim r1]) ∧
    findOneNim (s ++ [docOfRowNim r1]) r2.nim = findOneNim s r2.nim := by
  constructor
  · have hmap : s.map (fun r => r.nim) = s.map RecNim.nim := rfl
    simp [import_csv_nim, filterNew, hmap, h1, h2]
  · exact findOneNim_append s [docOfRowNim r1] r2.nim h2

/-- C6 witness: importing the fresh row "B" and the colliding row "A" into a
store holding the (not-checked-in) record "A". -/
theorem C6_insert_only_witness :
    import_csv_nim nimHeader [rowNimSpaces, rowNimA] [recNimA] =
      .ok (1, [recNimA] ++ [docOfRowNim rowNimSpaces]) ∧
    findOneNim ([recNimA] ++ [docOfRowNim rowNimSpaces]) rowNimA.nim =
      findOneNim [recNimA] rowNimA.nim :=
  C6_insert_only_one_new_one_existing [recNimA] rowNimSpaces rowNimA
    (by decide) (by decide)

/-- The check-in write leaves every record either untouched or in the
checked-in state with a string timestamp, so record consistency is
preserved. -/
theorem checkInConsistent_updateCheckIn (s : StoreApp) (i t : String)
    (hs : ∀ r ∈ s, checkInConsistent r) :
    ∀ r ∈ updateCheckIn i t s, checkInConsistent r := by
  induction s with
  | nil => intro r hr; simp [updateCheckIn] at hr
  | cons a as ih =>
    intro r hr
    by_cases hai : a.id = i
    · simp only [updateCheckIn, if_pos hai, List.mem_cons] at hr
      rcases hr with hr | hr
      · subst hr
        simp [checkInConsistent, Val.truthy]
      · exact hs r (List.mem_cons_of_mem a hr)
    · simp only [updateCheckIn, if_neg hai, List.mem_cons] at hr
      rcases hr with hr | hr
      · subst hr
        exact hs r (List.mem_cons_self r as)
      · exact ih (fun x hx => hs x (List.mem_cons_of_mem a hx)) r hr

/-- A record reset to `check_in = False`, `checked_in_at = None` is
consistent. -/
theorem checkInConsistent_resetRec (r : RecApp) : checkInConsistent (resetRec r) := by
  simp [checkInConsistent, resetRec, Val.truthy]

/-- The single-record reset write preserves record consistency. -/
theorem checkInConsistent_updateResetOne (s : StoreApp) (i : String)
    (hs : ∀ r ∈ s, checkInConsistent r) :
    ∀ r ∈ updateResetOne i s, checkInConsistent r := by
  induction s with
  | nil => intro r hr; simp [updateResetOne] at hr
  | cons a as ih =>
    intro r hr
    by_cases hai : a.id = i
    · simp only [updateResetOne, if_pos hai, List.mem_cons] at hr
      rcases hr with hr | hr
      · subst hr; exact checkInConsistent_resetRec a
      · exact hs r (List.mem_cons_of_mem a hr)
    · simp only [updateResetOne, if_neg hai, List.mem_cons] at hr
      rcases hr with hr | hr
      · subst hr; exact hs r (List.mem_cons_self r as)
      · exact ih (fun x hx => hs x (List.mem_cons_of_mem a hx)) r hr

/-- A member of the collection after one upsert is the staged document or an
old member. -/
theorem mem_upsertOne (d : RecApp) (s : StoreApp) (r : RecApp)
    (h : r ∈ upsertOne d s) : r = d ∨ r ∈ s := by
  induction s with
  | nil => simp [upsertOne] at h; exact Or.inl h
  | cons a as ih =>
    by_cases hai : a.id = d.id
    · simp only [upsertOne, if_pos hai, List.mem_cons] at h
      rcases h with h | h
      · exact Or.inl h
      · exact Or.inr (List.mem_cons_of_mem a h)
    · simp only [upsertOne, if_neg hai, List.mem_cons] at h
      rcases h with h | h
      · exact Or.inr (h ▸ List.mem_cons_self r as)
      · rcases ih h with h1 | h1
        · exact Or.inl h1
        · exact Or.inr (List.mem_cons_of_mem a h1)

/-- A member of the collection after the upsert loop is an old member or the
document staged from some batch row. -/
theorem mem_upsertAll (rows : List RowApp) (s : StoreApp) (r : RecApp)
    (h : r ∈ upsertAll rows s) : r ∈ s ∨ ∃ row ∈ rows, r = docOfRowApp row := by
  induction rows generalizing s with
  | nil => exact Or.inl h
  | cons row rest ih =>
    rcases ih (upsertOne (docOfRowApp row) s) h with h1 | h1
    · rcases mem_upsertOne (docOfRowApp row) s r h1 with h2 | h2
      · exact Or.inr ⟨row, List.mem_cons_self row rest, h2⟩
      · exact Or.inl h2
    · rcases h1 with ⟨row', hrow', hr⟩
      exact Or.inr ⟨row', List.mem_cons_of_mem row hrow', hr⟩

/-- C3 (amended): the invariant "`checked_in` truthy iff `checked_in_at`
non-null" is preserved by check-in, by reset (single and all), and by an
upsert import whose rows carry no explicit check-in columns (the defaults
`False`/`None` are consistent).  It is not guaranteed by imports whose rows
carry explicit check-in cells, which are stored verbatim (see the
counterexample). -/
theorem C3_invariant_after_operations (s : StoreApp)
    (hs : ∀ r ∈ s, checkInConsistent r) :
    (∀ t i out, check_in_app t i s = .ok out → ∀ r ∈ out.2, checkInConsistent r) ∧
    (∀ i out, reset_check_in_app i s = .ok out → ∀ r ∈ out.2, checkInConsistent r) ∧
    (∀ header rows out,
      (∀ row ∈ rows, row.check_in_col = none ∧ row.checked_in_at_col = none) →
      import_csv_app header rows s = .ok out → ∀ r ∈ out.2, checkInConsistent r) := by
  refine ⟨?_, ?_, ?_⟩
  · intro t i out h
    unfold check_in_app at h
    cases hf : findOneApp s i with
    | none => rw [hf] at h; cases h
    | some entry =>
      rw [hf] at h
      dsimp only at h
      by_cases he : entry.check_in.truthy
      · rw [if_pos he] at h; cases h
      · rw [if_neg he] at h
        injection h with h'
        rw [← h']
        exact checkInConsistent_updateCheckIn s i t hs
  · intro i out h
    unfold reset_check_in_app at h
    by_cases hi : i ≠ "all"
    · rw [if_pos hi] at h
      cases hf : findOneApp s i with
      | none => rw [hf] at h; cases h
      | some entry =>
        rw [hf] at h
        dsimp only at h
        injection h with h'
        rw [← h']
        exact checkInConsistent_updateResetOne s i hs
    · rw [if_neg hi] at h
      injection h with h'
      rw [← h']
      intro r hr
      rcases List.mem_map.mp hr with ⟨x, _, hx⟩
      exact hx ▸ checkInConsistent_resetRec x
  · intro header rows out hrows h
    unfold import_csv_app at h
    by_cases hh : "id" ∈ header ∧ "name" ∈ header
    · rw [if_pos hh] at h
      injection h with h'
      rw [← h']
      intro r hr
      rcases mem_upsertAll rows s r hr with h1 | h1
      · exact hs r h1
      · rcases h1 with ⟨row, hrow, hr'⟩
        rcases hrows row hrow with ⟨hc, hca⟩
        subst hr'
        simp [checkInConsistent, docOfRowApp, hc, hca, Val.truthy]
    · rw [if_neg hh] at h; cases h

/-- C3 witness: the import conjunct applied to the empty store and one row
without check-in columns; the imported record satisfies the invariant. -/
theorem C3_invariant_witness : checkInConsistent (docOfRowApp rowAppA) :=
  (C3_invariant_after_operations [] (by simp)).2.2 ["id", "name"] [rowAppA]
    (1, [docOfRowApp rowAppA]) (by intro row hrow; simp at hrow; subst hrow; exact ⟨rfl, rfl⟩)
    (by rfl) (docOfRowApp rowAppA) (List.mem_singleton.mpr rfl)

/-- C3 counterexample: importing a row whose explicit `check_in` cell is
empty (falsy) while its `checked_in_at` cell is non-empty stores a record
with `checked_in` falsy and `checked_in_at` non-null — the iff fails right
after an import operation. -/
theorem C3_counterexample_import_breaks_invariant :
    import_csv_app ["id", "name", "check_in", "checked_in_at"]
        [rowAppInconsistent] [] =
      .ok (1, [docOfRowApp rowAppInconsistent]) ∧
    ¬ checkInConsistent (docOfRowApp rowAppInconsistent) :=
  ⟨rfl, by decide⟩

/-- C5 (amended): only the nim variant enforces the order-sensitive exact
header match (expected columns, or expected columns with the two check-in
columns appended), failing with the format error otherwise; the id/name
variant merely checks that `id` and `name` are members of the header, so it
accepts reordered headers and extra columns. -/
theorem C5_header_validation (header : List String) (rows : List RowNim)
    (rowsA : List RowApp) (s : StoreNim) (sa : StoreApp)
    (hbad : ¬ (header = nimHeader ∨ header = nimHeaderWithCheckIn))
    (hid : "id" ∈ header) (hname : "name" ∈ header) :
    import_csv_nim header rows s = .error .invalidFormat ∧
    import_csv_app header rowsA sa = .ok (rowsA.length, upsertAll rowsA sa) := by
  constructor
  · push_neg at hbad
    simp [import_csv_nim, hbad.1, hbad.2]
  · simp [import_csv_app, hid, hname]

/-- C5 witness: the header `["name", "id"]` is not one of the accepted exact
column sets, yet the id/name variant's import accepts it. -/
theorem C5_header_validation_witness :
    import_csv_nim ["name", "id"] [] [] = .error .invalidFormat ∧
    import_csv_app ["name", "id"] [] [] = .ok (0, upsertAll [] []) :=
  C5_header_validation ["name", "id"] [] [] [] []
    (by decide) (by decide) (by decide)

/-- C5 counterexample: the wrong-order header `["name", "id"]` matches
neither accepted column set of the id/name deployment, yet `import_csv` of
`app/database.py` accepts it instead of failing with the format error. -/
theorem C5_counterexample_wrong_order_accepted :
    import_csv_app ["name", "id"] [] [] = .ok (0, []) ∧
    (["name", "id"] : List String) ≠ ["id", "name"] ∧
    (["name", "id"] : List String) ≠ ["id", "name", "check_in", "checked_in_at"] :=
  ⟨rfl, by decide, by decide⟩

theorem idsApp_cons (a : RecApp) (as : StoreApp) :
    idsApp (a :: as) = a.id :: idsApp as := rfl

/-- One upsert leaves the id sequence unchanged when the key is present and
appends the key when it is not. -/
theorem idsApp_upsertOne (d : RecApp) (s : StoreApp) :
    idsApp (upsertOne d s) =
      if d.id ∈ idsApp s then idsApp s else idsApp s ++ [d.id] := by
  induction s with
  | nil =>
    rw [show upsertOne d [] = [d] from rfl, if_neg (by simp [idsApp])]
    rfl
  | cons a as ih =>
    by_cases hai : a.id = d.id
    · rw [show upsertOne d (a :: as) = d :: as from by simp [upsertOne, hai]]
      rw [if_pos (by rw [idsApp_cons, hai]; exact List.mem_cons_self _ _)]
      rw [idsApp_cons, idsApp_cons, hai]
    · have hai' : ¬ d.id = a.id := fun h => hai h.symm
      rw [show upsertOne d (a :: as) = a :: upsertOne d as from by simp [upsertOne, hai]]
      rw [idsApp_cons, ih, idsApp_cons]
      by_cases hm : d.id ∈ idsApp as
      · rw [if_pos hm, if_pos (List.mem_cons_of_mem _ hm)]
      · rw [if_neg hm, if_neg (by simp [List.mem_cons, hai', hm]), List.cons_append]

/-- What `find_one` returns after one upsert: the staged document under its
own key, the old answer under any other key. -/
theorem findOneApp_upsertOne (d : RecApp) (s : StoreApp) (k : String) :
    findOneApp (upsertOne d s) k = if d.id = k then some d else findOneApp s k := by
  induction s with
  | nil => simp [upsertOne, findOneApp]
  | cons a as ih =>
    by_cases hai : a.id = d.id
    · rw [show upsertOne d (a :: as) = d :: as from by simp [upsertOne, hai]]
      by_cases hk : d.id = k
      · rw [if_pos hk]
        simp [findOneApp, hk]
      · have hak : ¬ a.id = k := fun h => hk (hai.symm.trans h)
        rw [if_neg hk]
        rw [show findOneApp (d :: as) k = findOneApp as k from by simp [findOneApp, hk]]
        rw [show findOneApp (a :: as) k = findOneApp as k from by simp [findOneApp, hak]]
    · rw [show upsertOne d (a :: as) = a :: upsertOne d as from by simp [upsertOne, hai]]
      by_cases hak : a.id = k
      · have hk : ¬ d.id = k := fun h => hai (hak.trans h.symm)
        rw [if_neg hk]
        rw [show findOneApp (a :: upsertOne d as) k = some a from by simp [findOneApp, hak]]
        rw [show findOneApp (a :: as) k = some a from by simp [findOneApp, hak]]
      · rw [show findOneApp (a :: upsertOne d as) k = findOneApp (upsertOne d as) k from by
          simp [findOneApp, hak]]
        rw [ih]
        by_cases hk : d.id = k
        · rw [if_pos hk, if_pos hk]
        · rw [if_neg hk, if_neg hk]
          rw [show findOneApp (a :: as) k = findOneApp as k from by simp [findOneApp, hak]]

/-- What `find_one` returns after the whole upsert loop: the last staged
document with the key if the batch mentions it, the old answer otherwise. -/
theorem findOneApp_upsertAll (rows : List RowApp) (s : StoreApp) (k : String) :
    findOneApp (upsertAll rows s) k =
      match lastUpsert rows k with
      | some d => some d
      | none => findOneApp s k := by
  induction rows generalizing s with
  | nil => simp [upsertAll, lastUpsert]
  | cons row rest ih =>
    show findOneApp (upsertAll rest (upsertOne (docOfRowApp row) s)) k = _
    rw [ih]
    cases hl : lastUpsert rest k with
    | some d => simp [lastUpsert, hl]
    | none =>
      by_cases hk : row.id = k
      · simp [lastUpsert, hl, hk, findOneApp_upsertOne, docOfRowApp_id]
      · simp [lastUpsert, hl, hk, findOneApp_upsertOne, docOfRowApp_id]

/-- The id sequence after the upsert loop: the old ids followed by the first
occurrences of the batch's fresh ids, in batch order. -/
theorem idsApp_upsertAll (rows : List RowApp) (s : StoreApp) :
    idsApp (upsertAll rows s) = idsApp s ++ newIds rows (idsApp s) := by
  induction rows generalizing s with
  | nil => simp [upsertAll, newIds]
  | cons row rest ih =>
    show idsApp (upsertAll rest (upsertOne (docOfRowApp row) s)) = _
    rw [ih, idsApp_upsertOne, docOfRowApp_id]
    by_cases hm : row.id ∈ idsApp s
    · rw [if_pos hm]
      simp [newIds, hm]
    · rw [if_neg hm]
      simp [newIds, hm, List.append_assoc]

/-- Every batch row's id is present after the loop (either it was in `seen`
or it is among the appended fresh ids). -/
theorem id_mem_append_newIds (rows : List RowApp) (seen : List String)
    (row : RowApp) (h : row ∈ rows) : row.id ∈ seen ++ newIds rows seen := by
  induction rows generalizing seen with
  | nil => cases h
  | cons r rest ih =>
    rcases List.mem_cons.mp h with h1 | h1
    · subst h1
      by_cases hm : row.id ∈ seen
      · rw [show newIds (row :: rest) seen = newIds rest seen from by simp [newIds, hm]]
        exact List.mem_append_left _ hm
      · rw [show newIds (row :: rest) seen = row.id :: newIds rest (seen ++ [row.id]) from by
          simp [newIds, hm]]
        exact List.mem_append_right _ (List.mem_cons_self _ _)
    · by_cases hm : r.id ∈ seen
      · rw [show newIds (r :: rest) seen = newIds rest seen from by simp [newIds, hm]]
        exact ih seen h1
      · rw [show newIds (r :: rest) seen = r.id :: newIds rest (seen ++ [r.id]) from by
          simp [newIds, hm]]
        have h2 := ih (seen ++ [r.id]) h1
        rwa [List.append_assoc, List.singleton_append] at h2

/-- A batch whose ids are all already present appends nothing. -/
theorem newIds_eq_nil (rows : List RowApp) (seen : List String)
    (h : ∀ row ∈ rows, row.id ∈ seen) : newIds rows seen = [] := by
  induction rows with
  | nil => rfl
  | cons r rest ih =>
    have hr := h r (List.mem_cons_self r rest)
    rw [show newIds (r :: rest) seen = newIds rest seen from by simp [newIds, hr]]
    exact ih (fun row hrow => h row (List.mem_cons_of_mem r hrow))

/-- The appended fresh ids are disjoint from the ids already present. -/
theorem newIds_not_mem (rows : List RowApp) (seen : List String) (x : String)
    (h : x ∈ newIds rows seen) : x ∉ seen := by
  induction rows generalizing seen with
  | nil => simp [newIds] at h
  | cons r rest ih =>
    by_cases hm : r.id ∈ seen
    · rw [show newIds (r :: rest) seen = newIds rest seen from by simp [newIds, hm]] at h
      exact ih seen h
    · rw [show newIds (r :: rest) seen = r.id :: newIds rest (seen ++ [r.id]) from by
        simp [newIds, hm]] at h
      rcases List.mem_cons.mp h with h1 | h1
      · exact h1 ▸ hm
      · intro hx
        exact ih (seen ++ [r.id]) h1 (List.mem_append_left _ hx)

/-- The upsert loop preserves uniqueness of the ids. -/
theorem nodup_append_newIds (rows : List RowApp) (seen : List String)
    (h : seen.Nodup) : (seen ++ newIds rows seen).Nodup := by
  induction rows generalizing seen with
  | nil => simpa [newIds]
  | cons r rest ih =>
    by_cases hm : r.id ∈ seen
    · rw [show newIds (r :: rest) seen = newIds rest seen from by simp [newIds, hm]]
      exact ih seen h
    · rw [show newIds (r :: rest) seen = r.id :: newIds rest (seen ++ [r.id]) from by
        simp [newIds, hm]]
      have hnd : (seen ++ [r.id]).Nodup := by
        simp [List.nodup_append, h, hm]
      have h2 := ih (seen ++ [r.id]) hnd
      rwa [List.append_assoc, List.singleton_append] at h2

/-- `find_one` misses keys outside the id sequence. -/
theorem findOneApp_eq_none (s : StoreApp) (k : String) (h : k ∉ idsApp s) :
    findOneApp s k = none := by
  induction s with
  | nil => rfl
  | cons a as ih =>
    simp only [idsApp, List.map_cons, List.mem_cons, not_or] at h
    simp only [findOneApp]
    rw [if_neg (fun he => h.1 he.symm)]
    exact ih h.2

/-- Two collections with the same duplicate-free id sequence and the same
`find_one` answers are equal. -/
theorem storeApp_ext (s₁ : StoreApp) (s₂ : StoreApp) (hids : idsApp s₁ = idsApp s₂)
    (hnd : (idsApp s₁).Nodup) (hlook : ∀ k, findOneApp s₁ k = findOneApp s₂ k) :
    s₁ = s₂ := by
  induction s₁ generalizing s₂ with
  | nil =>
    cases s₂ with
    | nil => rfl
    | cons b bs => simp [idsApp] at hids
  | cons a as ih =>
    cases s₂ with
    | nil => simp [idsApp] at hids
    | cons b bs =>
      simp only [idsApp, List.map_cons, List.cons.injEq] at hids
      simp only [idsApp, List.map_cons, List.nodup_cons] at hnd
      have hab : a = b := by
        have h1 := hlook a.id
        rw [show findOneApp (a :: as) a.id = some a from by simp [findOneApp]] at h1
        rw [show findOneApp (b :: bs) a.id = some b from by
          simp [findOneApp, hids.1.symm]] at h1
        exact Option.some.inj h1
      subst hab
      have htail : as = bs := by
        apply ih
        · exact hids.2
        · exact hnd.2
        · intro k
          by_cases hk : k = a.id
          · subst hk
            have hbs : a.id ∉ idsApp bs := by
              show a.id ∉ List.map (fun x => x.id) bs
              rw [← hids.2]
              exact hnd.1
            rw [findOneApp_eq_none as a.id hnd.1]
            rw [findOneApp_eq_none bs a.id hbs]
          · have h1 := hlook k
            simp only [findOneApp] at h1
            rw [if_neg (fun he => hk he.symm), if_neg (fun he => hk he.symm)] at h1
            exact h1
      rw [htail]

/-- Running the upsert loop a second time over its own result changes
nothing: every id is already present, and the last staged value per id is
re-written unchanged. -/
theorem upsertAll_idem (rows : List RowApp) (s : StoreApp)
    (hnd : (idsApp s).Nodup) :
    upsertAll rows (upsertAll rows s) = upsertAll rows s := by
  have hall : ∀ row ∈ rows, row.id ∈ idsApp (upsertAll rows s) := by
    intro row hrow
    rw [idsApp_upsertAll]
    exact id_mem_append_newIds rows (idsApp s) row hrow
  have hids : idsApp (upsertAll rows (upsertAll rows s)) = idsApp (upsertAll rows s) := by
    rw [idsApp_upsertAll rows (upsertAll rows s), newIds_eq_nil rows _ hall, List.append_nil]
  have hnd2 : (idsApp (upsertAll rows s)).Nodup := by
    rw [idsApp_upsertAll]
    exact nodup_append_newIds rows (idsApp s) hnd
  apply storeApp_ext _ _ hids (by rw [hids]; exact hnd2)
  intro k
  rw [findOneApp_upsertAll rows (upsertAll rows s) k, findOneApp_upsertAll rows s k]
  cases hl : lastUpsert rows k with
  | some d => simp [hl]
  | none => simp [hl, findOneApp_upsertAll rows s k]

/-- C4: under the upsert policy (`app/database.py`), importing the same
batch twice yields, after the second import, a store state identical to the
state after the first import, given the store invariant that ids are unique;
the returned count is also the same. -/
theorem C4_upsert_import_idempotent (header : List String) (rows : List RowApp)
    (s : StoreApp) (n : Nat) (t : StoreApp) (hnd : (idsApp s).Nodup)
    (h : import_csv_app header rows s = .ok (n, t)) :
    import_csv_app header rows t = .ok (n, t) := by
  unfold import_csv_app at h ⊢
  by_cases hh : "id" ∈ header ∧ "name" ∈ header
  · rw [if_pos hh] at h ⊢
    injection h with h'
    have hn : rows.length = n := congrArg Prod.fst h'
    have ht : upsertAll rows s = t := congrArg Prod.snd h'
    subst hn
    subst ht
    rw [upsertAll_idem rows s hnd]
  · rw [if_neg hh] at h
    cases h

/-- C4 witness: re-importing the one-row batch over its own import result
returns the same count and the same store. -/
theorem C4_upsert_import_idempotent_witness :
    import_csv_app ["id", "name"] [rowAppA] [docOfRowApp rowAppA] =
      .ok (1, [docOfRowApp rowAppA]) :=
  C4_upsert_import_idempotent ["id", "name"] [rowAppA] [] 1 [docOfRowApp rowAppA]
    (by simp [idsApp]) (by rfl)

end GuestBook
